import Mathlib

/-
Verification development for the storage-availability monitor of the
repository (src/src/hooks/useStorageCheck.ts).

The hook is embedded in three layers, each translated from the source:

1. A pure check-cycle function `checkStorage`, the body of the async
   closure `checkStorage` (lines 39-78).  The two asynchronous oracles
   (`hasEnoughSpace`, `DeviceInfo.getFreeDiskStorage`) and the abort flag
   observed at each await point are inputs, collected in `CycleEnv`; the
   output records the emitted status (if any) and which oracles the cycle
   invoked.

2. An event-step machine `step` over `HookState`, covering the whole hook
   lifecycle: the React effect run (cleanup of the previous session
   followed by the effect body, lines 36-92), unmount, timer fires, and
   the resumption of an in-flight cycle at each of its two await points.
   Status writes are logged together with the session id and model of the
   emitting cycle.

3. A discrete-time timer model `checksStartedBy` for the scheduling part
   of the effect body (lines 80-84): one immediate invocation of
   checkStorage plus, when periodic checking is enabled, a
   setInterval-driven invocation at every positive multiple of the
   interval.

The byte formatter `formatBytes` lives in src/utils, outside the provided
sources; it is abstracted as a function parameter `fmt : Nat -> String`
throughout, matching its black-box role in the messages.
-/

namespace StorageCheck

/-- Modelled from the spec: the model-origin enum (types.ts is not among
the provided sources).  Only the `LOCAL` constructor is inspected by the
hook; every other origin is collapsed into `REMOTE`. -/
inductive ModelOrigin
  | LOCAL
  | REMOTE
deriving DecidableEq, Repr

/-- The fields of a model descriptor that `useStorageCheck` reads:
`size`, `isDownloaded`, `isLocal` and `origin`. -/
structure Model where
  size : Nat
  isDownloaded : Bool
  isLocal : Bool
  origin : ModelOrigin
deriving DecidableEq, Repr

/-- The status record published by the hook. -/
structure StorageStatus where
  isOk : Bool
  message : String
deriving DecidableEq, Repr

/-- The value passed to useState on mount, and also the status emitted by
a cycle that finds sufficient space (lines 29-32 and 67-70 coincide). -/
def okStatus : StorageStatus := ⟨true, ""⟩

/-- The status emitted by the catch block (line 75). -/
def failStatus : StorageStatus := ⟨false, "Failed to check storage"⟩

/-- The status emitted on insufficient space (lines 60-65). -/
def lowStatus (fmt : Nat → String) (size free : Nat) : StorageStatus :=
  ⟨false, "Storage low! Model " ++ fmt size ++ " > " ++ fmt free ++ " free"⟩

/-- The guard of lines 41-47: the cycle returns immediately when the model
is already downloaded, is local, or has origin LOCAL. -/
def shouldSkip (m : Model) : Bool :=
  m.isDownloaded || m.isLocal || decide (m.origin = ModelOrigin.LOCAL)

/-- Environment of one check cycle: the outcome of each asynchronous
oracle (`Except.error` models a rejected promise) and the value of
`abortController.signal.aborted` observed after each await resolves.
The abort flag can only change at await points, so these two samples
determine every read of the flag in the cycle, including the one in the
catch block. -/
structure CycleEnv where
  spaceResult : Except Unit Bool
  abortedAfterSpace : Bool
  freeResult : Except Unit Nat
  abortedAfterFree : Bool

/-- Result of one check cycle: the status update it performs, if any, and
which oracles it invoked. -/
structure CycleOut where
  emitted : Option StorageStatus
  spaceCalled : Bool
  freeCalled : Bool
deriving DecidableEq, Repr

/-- The body of the async closure `checkStorage` (lines 39-78), as a pure
function of the model and the cycle environment.  A rejected oracle lands
in the catch block, which reads the abort flag as sampled after the await
that failed. -/
def checkStorage (fmt : Nat → String) (m : Model) (env : CycleEnv) : CycleOut :=
  if shouldSkip m then ⟨none, false, false⟩
  else
    match env.spaceResult with
    | .error _ =>
        if env.abortedAfterSpace then ⟨none, true, false⟩
        else ⟨some failStatus, true, false⟩
    | .ok isEnoughSpace =>
        if env.abortedAfterSpace then ⟨none, true, false⟩
        else if !isEnoughSpace then
          match env.freeResult with
          | .error _ =>
              if env.abortedAfterFree then ⟨none, true, true⟩
              else ⟨some failStatus, true, true⟩
          | .ok freeDisk =>
              if env.abortedAfterFree then ⟨none, true, true⟩
              else ⟨some (lowStatus fmt m.size freeDisk), true, true⟩
        else ⟨some okStatus, true, false⟩

/-- Phase of an in-flight cycle: suspended at the first await
(hasEnoughSpace, line 49) or at the second (getFreeDiskStorage, line 55). -/
inductive CyclePhase
  | awaitSpace
  | awaitFree
deriving DecidableEq, Repr

/-- An in-flight check cycle, tagged with the session that started it and
the model captured by its closure. -/
structure Cycle where
  sid : Nat
  model : Model
  phase : CyclePhase
deriving DecidableEq, Repr

/-- State of one hook instance.  `curId` numbers effect runs; a cycle is
stale exactly when its session id is no longer current or the component
has unmounted, which is when the AbortController of the session that
started it has been aborted (cleanup, lines 86-91).  `spaceCalls`,
`freeCalls` and `writes` are logs of oracle invocations and of
setStorageStatus calls, for stating the temporal claims. -/
structure HookState where
  status : StorageStatus
  mounted : Bool
  curId : Nat
  curModel : Model
  curEnable : Bool
  curInterval : Nat
  timerActive : Bool
  inflight : List Cycle
  spaceCalls : List (Nat × Model)
  freeCalls : List (Nat × Model)
  writes : List (Nat × Model × StorageStatus)
deriving DecidableEq, Repr

/-- State at mount time: useState seeds the status with okStatus
(lines 29-32); no session has run yet. -/
def initState : HookState :=
  { status := okStatus
    mounted := false
    curId := 0
    curModel := ⟨0, false, false, ModelOrigin.REMOTE⟩
    curEnable := true
    curInterval := 10000
    timerActive := false
    inflight := []
    spaceCalls := []
    freeCalls := []
    writes := [] }

/-- The abort flag a cycle of session `sid` observes: the cleanup of that
session has run exactly when a later effect run superseded it or the
component unmounted. -/
def HookState.isStale (s : HookState) (sid : Nat) : Bool :=
  !s.mounted || sid != s.curId

/-- Synchronous start of checkStorage (line 80 or a timer fire): a skipped
model returns before any await (lines 41-47), touching nothing; otherwise
the cycle invokes hasEnoughSpace and suspends at the first await. -/
def startCycle (s : HookState) : HookState :=
  if shouldSkip s.curModel then s
  else
    { s with
      inflight := s.inflight ++ [⟨s.curId, s.curModel, CyclePhase.awaitSpace⟩]
      spaceCalls := s.spaceCalls ++ [(s.curId, s.curModel)] }

/-- The effect body (lines 36-84): a fresh AbortController (a new session
id), one immediate checkStorage call, then setInterval iff periodic
checking is enabled. -/
def effectBody (m : Model) (en : Bool) (iv : Nat) (s : HookState) : HookState :=
  let s1 : HookState :=
    { s with
      mounted := true
      curId := s.curId + 1
      curModel := m
      curEnable := en
      curInterval := iv
      timerActive := false }
  let s2 := startCycle s1
  { s2 with timerActive := en }

/-- The effect cleanup (lines 86-91): abort the controller and clear the
interval.  The abort itself is represented by the session id ceasing to be
current (see `HookState.isStale`). -/
def cleanup (s : HookState) : HookState :=
  { s with timerActive := false }

/-- A setStorageStatus call performed by cycle `c`: the published status
is replaced and the write is logged with the session and model of the
emitting cycle. -/
def emitStatus (s : HookState) (c : Cycle) (st : StorageStatus) : HookState :=
  { s with status := st, writes := s.writes ++ [(c.sid, c.model, st)] }

/-- Events of the hook event loop.  `effectRun` is React running the
effect after a mount or a change of a dependency (model,
enablePeriodicCheck, checkInterval); cleanup of the previous session runs
first, synchronously.  `spaceResolve`/`freeResolve` resume the in-flight
cycle at index `i` with the outcome of the awaited oracle. -/
inductive Event
  | effectRun (m : Model) (en : Bool) (iv : Nat)
  | unmount
  | timerFire
  | spaceResolve (i : Nat) (res : Except Unit Bool)
  | freeResolve (i : Nat) (res : Except Unit Nat)

/-- One step of the hook event loop.  Each event is atomic on the JS
thread: a resumed cycle runs synchronously from its await point to the
next await or to completion. -/
def step (fmt : Nat → String) (e : Event) (s : HookState) : HookState :=
  match e with
  | .effectRun m en iv =>
      if !s.mounted && decide (0 < s.curId) then s
      else effectBody m en iv (cleanup s)
  | .unmount =>
      { s with mounted := false, timerActive := false }
  | .timerFire =>
      if s.timerActive then startCycle s else s
  | .spaceResolve i res =>
      match s.inflight[i]? with
      | none => s
      | some c =>
          match c.phase with
          | .awaitFree => s
          | .awaitSpace =>
              if s.isStale c.sid then { s with inflight := s.inflight.eraseIdx i }
              else
                match res with
                | .error _ =>
                    emitStatus { s with inflight := s.inflight.eraseIdx i } c failStatus
                | .ok true =>
                    emitStatus { s with inflight := s.inflight.eraseIdx i } c okStatus
                | .ok false =>
                    { s with
                      inflight := s.inflight.set i ⟨c.sid, c.model, CyclePhase.awaitFree⟩
                      freeCalls := s.freeCalls ++ [(c.sid, c.model)] }
  | .freeResolve i res =>
      match s.inflight[i]? with
      | none => s
      | some c =>
          match c.phase with
          | .awaitSpace => s
          | .awaitFree =>
              if s.isStale c.sid then { s with inflight := s.inflight.eraseIdx i }
              else
                match res with
                | .error _ =>
                    emitStatus { s with inflight := s.inflight.eraseIdx i } c failStatus
                | .ok free =>
                    emitStatus { s with inflight := s.inflight.eraseIdx i } c
                      (lowStatus fmt c.model.size free)

/-- Run of the hook from mount, over a list of events. -/
def run (fmt : Nat → String) (tr : List Event) : HookState :=
  tr.foldl (fun s e => step fmt e s) initState

/-- Number of checkStorage invocations started within `t` milliseconds of
the effect body running, for a session that is never torn down: one
immediate call (line 80), plus, iff `enable`, the setInterval callback
(line 83) at every positive multiple of `interval`. -/
def checksStartedBy (enable : Bool) (interval : Nat) : Nat → Nat
  | 0 => 1
  | t + 1 =>
      checksStartedBy enable interval t +
        (if enable && (t + 1) % interval == 0 then 1 else 0)

/-! Concrete fixtures used by witnesses and counterexamples. -/

/-- A trivial byte formatter standing in for formatBytes in concrete runs. -/
def fmt0 : Nat → String := fun n => toString n ++ " B"

/-- A remote, not-yet-downloaded model: its cycles do run the space check. -/
def mRemote : Model := ⟨7, false, false, ModelOrigin.REMOTE⟩

/-- A second remote model, used when an input change replaces the session. -/
def mRemote2 : Model := ⟨9, false, false, ModelOrigin.REMOTE⟩

/-- A local model: its cycles skip before the first await. -/
def mLocal : Model := ⟨7, false, true, ModelOrigin.REMOTE⟩

/-! Frame lemmas about the building blocks of `step`. -/

lemma startCycle_status (s : HookState) : (startCycle s).status = s.status := by
  unfold startCycle; split <;> rfl

lemma startCycle_writes (s : HookState) : (startCycle s).writes = s.writes := by
  unfold startCycle; split <;> rfl

lemma startCycle_freeCalls (s : HookState) : (startCycle s).freeCalls = s.freeCalls := by
  unfold startCycle; split <;> rfl

lemma effectBody_status (m : Model) (en : Bool) (iv : Nat) (s : HookState) :
    (effectBody m en iv s).status = s.status := by
  unfold effectBody
  rw [show ({ startCycle _ with timerActive := en } : HookState).status =
        (startCycle _).status from rfl, startCycle_status]

lemma effectBody_writes (m : Model) (en : Bool) (iv : Nat) (s : HookState) :
    (effectBody m en iv s).writes = s.writes := by
  unfold effectBody
  rw [show ({ startCycle _ with timerActive := en } : HookState).writes =
        (startCycle _).writes from rfl, startCycle_writes]

lemma effectBody_curId (m : Model) (en : Bool) (iv : Nat) (s : HookState) :
    (effectBody m en iv s).curId = s.curId + 1 := by
  by_cases h : shouldSkip m = true <;> simp [effectBody, startCycle, h]

lemma effectBody_mounted (m : Model) (en : Bool) (iv : Nat) (s : HookState) :
    (effectBody m en iv s).mounted = true := by
  by_cases h : shouldSkip m = true <;> simp [effectBody, startCycle, h]

lemma effectBody_curModel (m : Model) (en : Bool) (iv : Nat) (s : HookState) :
    (effectBody m en iv s).curModel = m := by
  by_cases h : shouldSkip m = true <;> simp [effectBody, startCycle, h]

lemma effectBody_curEnable (m : Model) (en : Bool) (iv : Nat) (s : HookState) :
    (effectBody m en iv s).curEnable = en := by
  by_cases h : shouldSkip m = true <;> simp [effectBody, startCycle, h]

lemma effectBody_curInterval (m : Model) (en : Bool) (iv : Nat) (s : HookState) :
    (effectBody m en iv s).curInterval = iv := by
  by_cases h : shouldSkip m = true <;> simp [effectBody, startCycle, h]

lemma effectBody_timerActive (m : Model) (en : Bool) (iv : Nat) (s : HookState) :
    (effectBody m en iv s).timerActive = en := by
  by_cases h : shouldSkip m = true <;> simp [effectBody, startCycle, h]

lemma effectBody_spaceCalls (m : Model) (en : Bool) (iv : Nat) (s : HookState) :
    (effectBody m en iv s).spaceCalls =
      if shouldSkip m then s.spaceCalls else s.spaceCalls ++ [(s.curId + 1, m)] := by
  by_cases h : shouldSkip m = true <;> simp [effectBody, startCycle, h]

lemma isStale_eq_false {s : HookState} {sid : Nat} (h : s.isStale sid = false) :
    s.mounted = true ∧ sid = s.curId := by
  simpa [HookState.isStale] using h

/-! Closed form of the timer model. -/

lemma checksStartedBy_closed (enable : Bool) (interval t : Nat) :
    checksStartedBy enable interval t = 1 + (if enable then t / interval else 0) := by
  induction t with
  | zero => cases enable <;> simp [checksStartedBy]
  | succ t ih =>
      rw [checksStartedBy, ih]
      cases enable with
      | false => simp
      | true =>
          rw [Nat.succ_div]
          by_cases hm : (t + 1) % interval = 0
          · have h : interval ∣ (t + 1) := Nat.dvd_iff_mod_eq_zero.mpr hm
            simp [h, hm]
            omega
          · have h : ¬ interval ∣ (t + 1) := fun hd => hm (Nat.dvd_iff_mod_eq_zero.mp hd)
            simp [h, hm]

/-- C9: the published status is not reset when a session is replaced.  The
useState seed is okStatus, and no lifecycle transition (effect run after a
dependency change, timer fire, unmount) touches the published status; only
a completing cycle does.  Hence after switching to a model whose cycles
skip or have not yet completed, the caller keeps observing the last
emitted status. -/
theorem status_persists_across_sessions (fmt : Nat → String) (m : Model) (en : Bool)
    (iv : Nat) (s : HookState) :
    initState.status = okStatus ∧
    (step fmt (Event.effectRun m en iv) s).status = s.status ∧
    (step fmt Event.timerFire s).status = s.status ∧
    (step fmt Event.unmount s).status = s.status := by
  refine ⟨rfl, ?_, ?_, rfl⟩
  · simp only [step]
    split
    · rfl
    · rw [effectBody_status]; rfl
  · simp only [step]
    split
    · rw [startCycle_status]
    · rfl

/-- C6: with enablePeriodicCheck = false the effect body installs no
interval (timerActive stays false), and over any elapsed time the session
runs exactly one check cycle, the immediate one. -/
theorem single_check_when_periodic_disabled (fmt : Nat → String) (m : Model) (iv : Nat)
    (s : HookState) (hm : s.mounted = true) (iv2 t : Nat) :
    (step fmt (Event.effectRun m false iv) s).timerActive = false ∧
    checksStartedBy false iv2 t = 1 := by
  constructor
  · simp [step, hm, effectBody_timerActive]
  · rw [checksStartedBy_closed]; simp

/-- Witness for C6 at a concrete mounted state and a wait of five
intervals. -/
theorem single_check_when_periodic_disabled_witness :
    (step fmt0 (Event.effectRun mRemote false 10000)
        (run fmt0 [Event.effectRun mRemote true 10000])).timerActive = false ∧
    checksStartedBy false 10000 50000 = 1 :=
  single_check_when_periodic_disabled fmt0 mRemote 10000
    (run fmt0 [Event.effectRun mRemote true 10000]) rfl 10000 50000

/-- C7 counterexample: with periodic checking on and a 10000 ms interval,
once 1 x 10000 ms have elapsed the session has run 2 check cycles (the
immediate one plus the first timer fire), not exactly N = 1 as the claim
states. -/
theorem periodic_check_count_cex : ¬ (checksStartedBy true 10000 (1 * 10000) = 1) := by
  rw [checksStartedBy_closed]
  norm_num

/-- C7 amended: once N x 10000 ms have elapsed since session start, exactly
N + 1 check cycles have occurred: the immediate one on session start plus
one per timer fire. -/
theorem periodic_check_count (N : Nat) :
    checksStartedBy true 10000 (N * 10000) = N + 1 := by
  rw [checksStartedBy_closed]
  simp
  omega

/-- C1: a check cycle that is in flight when its session is cancelled
discards its result at either await point: resuming it changes neither the
published status nor the write log.  Teardown clears the interval, a
cleared timer never fires again, and, over every possible event, any entry
appended to the write log is tagged with the current session id, so no
status update is ever emitted on behalf of a torn-down session. -/
theorem no_status_update_after_teardown (fmt : Nat → String) (s : HookState) (e : Event)
    (i : Nat) (c : Cycle) (rs : Except Unit Bool) (rf : Except Unit Nat)
    (hc : s.inflight[i]? = some c) (hstale : s.isStale c.sid = true) :
    (step fmt (Event.spaceResolve i rs) s).status = s.status ∧
    (step fmt (Event.spaceResolve i rs) s).writes = s.writes ∧
    (step fmt (Event.freeResolve i rf) s).status = s.status ∧
    (step fmt (Event.freeResolve i rf) s).writes = s.writes ∧
    (step fmt Event.unmount s).timerActive = false ∧
    (s.timerActive = false → step fmt Event.timerFire s = s) ∧
    ((step fmt e s).writes.drop s.writes.length).all (fun w => w.1 == s.curId) = true := by
  obtain ⟨sid, mo, ph⟩ := c
  refine ⟨?_, ?_, ?_, ?_, rfl, ?_, ?_⟩
  · cases ph <;> simp [step, hc, hstale]
  · cases ph <;> simp [step, hc, hstale]
  · cases ph <;> simp [step, hc, hstale]
  · cases ph <;> simp [step, hc, hstale]
  · intro h; simp [step, h]
  · cases e with
    | effectRun m en iv =>
        have hw : (step fmt (Event.effectRun m en iv) s).writes = s.writes := by
          simp only [step]; split
          · rfl
          · rw [effectBody_writes]; rfl
        rw [hw, List.drop_length]; rfl
    | unmount =>
        rw [show (step fmt Event.unmount s).writes = s.writes from rfl, List.drop_length]
        rfl
    | timerFire =>
        have hw : (step fmt Event.timerFire s).writes = s.writes := by
          simp only [step]; split
          · rw [startCycle_writes]
          · rfl
        rw [hw, List.drop_length]; rfl
    | spaceResolve j rs2 =>
        rcases h2 : s.inflight[j]? with _ | ⟨sid2, mo2, ph2⟩
        · simp [step, h2, List.drop_length]
        · cases ph2 with
          | awaitFree => simp [step, h2, List.drop_length]
          | awaitSpace =>
              by_cases hst : s.isStale sid2 = true
              · simp [step, h2, hst, List.drop_length]
              · have hif : s.isStale sid2 = false := Bool.eq_false_iff.mpr hst
                have hb := isStale_eq_false hif
                rcases rs2 with e2 | b
                · have hw : (step fmt (Event.spaceResolve j (Except.error e2)) s).writes
                      = s.writes ++ [(sid2, mo2, failStatus)] := by
                    simp [step, h2, hif, emitStatus]
                  rw [hw, List.drop_left]
                  simp [hb.2]
                · cases b
                  · have hw : (step fmt (Event.spaceResolve j (Except.ok false)) s).writes
                        = s.writes := by
                      simp [step, h2, hif]
                    rw [hw, List.drop_length]; rfl
                  · have hw : (step fmt (Event.spaceResolve j (Except.ok true)) s).writes
                        = s.writes ++ [(sid2, mo2, okStatus)] := by
                      simp [step, h2, hif, emitStatus]
                    rw [hw, List.drop_left]
                    simp [hb.2]
    | freeResolve j rf2 =>
        rcases h2 : s.inflight[j]? with _ | ⟨sid2, mo2, ph2⟩
        · simp [step, h2, List.drop_length]
        · cases ph2 with
          | awaitSpace => simp [step, h2, List.drop_length]
          | awaitFree =>
              by_cases hst : s.isStale sid2 = true
              · simp [step, h2, hst, List.drop_length]
              · have hif : s.isStale sid2 = false := Bool.eq_false_iff.mpr hst
                have hb := isStale_eq_false hif
                rcases rf2 with e2 | n
                · have hw : (step fmt (Event.freeResolve j (Except.error e2)) s).writes
                      = s.writes ++ [(sid2, mo2, failStatus)] := by
                    simp [step, h2, hif, emitStatus]
                  rw [hw, List.drop_left]
                  simp [hb.2]
                · have hw : (step fmt (Event.freeResolve j (Except.ok n)) s).writes
                      = s.writes ++ [(sid2, mo2, lowStatus fmt mo2.size n)] := by
                    simp [step, h2, hif, emitStatus]
                  rw [hw, List.drop_left]
                  simp [hb.2]

/-- A state whose first in-flight cycle is stale: the second effect run
replaced the session that started it. -/
def staleState : HookState :=
  run fmt0 [Event.effectRun mRemote true 10000, Event.effectRun mRemote2 true 10000]

/-- A mounted state with one live session and its first check in flight. -/
def sOne : HookState := run fmt0 [Event.effectRun mRemote true 10000]

/-- Cycle environment: sufficient space, nothing aborted. -/
def envOk : CycleEnv := ⟨Except.ok true, false, Except.ok 3, false⟩

/-- Cycle environment: insufficient space, 3 bytes free, nothing aborted. -/
def envLow : CycleEnv := ⟨Except.ok false, false, Except.ok 3, false⟩

/-- Cycle environment: the space-sufficiency oracle rejects. -/
def envErr : CycleEnv := ⟨Except.error (), false, Except.ok 0, false⟩

/-- Cycle environment: insufficient space but the session was cancelled
while hasEnoughSpace was pending. -/
def envCancelled : CycleEnv := ⟨Except.ok false, true, Except.ok 0, false⟩

/-- C4: for a non-local, non-downloaded model, a completed cycle emits
okStatus when hasEnoughSpace reports sufficiency; on insufficiency it
queries the free-disk oracle and emits the storage-low message built from
the formatted model size and formatted free space; and the free-disk
oracle is invoked only in the insufficiency case of a live cycle. -/
theorem check_cycle_emissions (fmt : Nat → String) (m : Model) (env : CycleEnv)
    (hskip : shouldSkip m = false) :
    (env.spaceResult = Except.ok true → env.abortedAfterSpace = false →
       checkStorage fmt m env = ⟨some okStatus, true, false⟩) ∧
    (∀ free, env.spaceResult = Except.ok false → env.abortedAfterSpace = false →
       env.freeResult = Except.ok free → env.abortedAfterFree = false →
       checkStorage fmt m env = ⟨some (lowStatus fmt m.size free), true, true⟩) ∧
    ((checkStorage fmt m env).freeCalled = true →
       env.spaceResult = Except.ok false ∧ env.abortedAfterSpace = false) := by
  refine ⟨?_, ?_, ?_⟩
  · intro h1 h2
    simp [checkStorage, hskip, h1, h2]
  · intro free h1 h2 h3 h4
    simp [checkStorage, hskip, h1, h2, h3, h4]
  · intro hf
    rcases henv : env.spaceResult with er | b
    · cases hb : env.abortedAfterSpace <;>
        simp [checkStorage, hskip, henv, hb] at hf
    · cases hb : env.abortedAfterSpace
      · cases b
        · simp [henv, hb]
        · simp [checkStorage, hskip, henv, hb] at hf
      · simp [checkStorage, hskip, henv, hb] at hf

/-- Witness for C4 at a concrete remote model and concrete environments. -/
theorem check_cycle_emissions_witness :
    (envLow.spaceResult = Except.ok true → envLow.abortedAfterSpace = false →
       checkStorage fmt0 mRemote envLow = ⟨some okStatus, true, false⟩) ∧
    (∀ free, envLow.spaceResult = Except.ok false → envLow.abortedAfterSpace = false →
       envLow.freeResult = Except.ok free → envLow.abortedAfterFree = false →
       checkStorage fmt0 mRemote envLow = ⟨some (lowStatus fmt0 mRemote.size free), true, true⟩) ∧
    ((checkStorage fmt0 mRemote envLow).freeCalled = true →
       envLow.spaceResult = Except.ok false ∧ envLow.abortedAfterSpace = false) :=
  check_cycle_emissions fmt0 mRemote envLow rfl

/-- C5: if either oracle of a non-cancelled cycle rejects, the cycle emits
exactly failStatus.  The cycle function is total into CycleOut, so the
failure is absorbed: every failure path ends in a status update, never in
an escaping rejection. -/
theorem failure_absorbed (fmt : Nat → String) (m : Model) (env : CycleEnv)
    (hskip : shouldSkip m = false) :
    (∀ er, env.spaceResult = Except.error er → env.abortedAfterSpace = false →
       checkStorage fmt m env = ⟨some failStatus, true, false⟩) ∧
    (∀ er, env.spaceResult = Except.ok false → env.abortedAfterSpace = false →
       env.freeResult = Except.error er → env.abortedAfterFree = false →
       checkStorage fmt m env = ⟨some failStatus, true, true⟩) := by
  constructor
  · intro er h1 h2
    simp [checkStorage, hskip, h1, h2]
  · intro er h1 h2 h3 h4
    simp [checkStorage, hskip, h1, h2, h3, h4]

/-- Witness for C5: the rejecting space oracle yields failStatus. -/
theorem failure_absorbed_witness :
    (∀ er, envErr.spaceResult = Except.error er → envErr.abortedAfterSpace = false →
       checkStorage fmt0 mRemote envErr = ⟨some failStatus, true, false⟩) ∧
    (∀ er, envErr.spaceResult = Except.ok false → envErr.abortedAfterSpace = false →
       envErr.freeResult = Except.error er → envErr.abortedAfterFree = false →
       checkStorage fmt0 mRemote envErr = ⟨some failStatus, true, true⟩) :=
  failure_absorbed fmt0 mRemote envErr rfl

/-- C10: once a session is cancelled, an in-flight cycle issues no further
external queries.  At the machine level, resuming a stale cycle at the
first await leaves the free-disk and space call logs unchanged; at the
cycle level, when the abort flag is observed after hasEnoughSpace resolves
the free-disk oracle is never invoked. -/
theorem no_queries_after_cancellation (fmt : Nat → String) (s : HookState) (i : Nat)
    (c : Cycle) (rs : Except Unit Bool) (m : Model) (env : CycleEnv)
    (hc : s.inflight[i]? = some c) (hstale : s.isStale c.sid = true)
    (ha : env.abortedAfterSpace = true) :
    (step fmt (Event.spaceResolve i rs) s).freeCalls = s.freeCalls ∧
    (step fmt (Event.spaceResolve i rs) s).spaceCalls = s.spaceCalls ∧
    (checkStorage fmt m env).freeCalled = false := by
  obtain ⟨sid, mo, ph⟩ := c
  refine ⟨?_, ?_, ?_⟩
  · cases ph <;> simp [step, hc, hstale]
  · cases ph <;> simp [step, hc, hstale]
  · rcases henv : env.spaceResult with er | b
    · simp [checkStorage, henv, ha]
      split <;> rfl
    · simp [checkStorage, henv, ha]
      split <;> rfl

/-- Witness for C10 at the stale state and a cancelled environment. -/
theorem no_queries_after_cancellation_witness :
    (step fmt0 (Event.spaceResolve 0 (Except.ok false)) staleState).freeCalls =
      staleState.freeCalls ∧
    (step fmt0 (Event.spaceResolve 0 (Except.ok false)) staleState).spaceCalls =
      staleState.spaceCalls ∧
    (checkStorage fmt0 mRemote envCancelled).freeCalled = false :=
  no_queries_after_cancellation fmt0 staleState 0 ⟨1, mRemote, CyclePhase.awaitSpace⟩
    (Except.ok false) mRemote envCancelled rfl rfl rfl

/-- Witness for C1 at the stale state: resuming the stale cycle with a
sufficient-space result, or with a free-disk result, changes nothing. -/
theorem no_status_update_after_teardown_witness :
    (step fmt0 (Event.spaceResolve 0 (Except.ok true)) staleState).status =
      staleState.status ∧
    (step fmt0 (Event.spaceResolve 0 (Except.ok true)) staleState).writes =
      staleState.writes ∧
    (step fmt0 (Event.freeResolve 0 (Except.ok 3)) staleState).status =
      staleState.status ∧
    (step fmt0 (Event.freeResolve 0 (Except.ok 3)) staleState).writes =
      staleState.writes ∧
    (step fmt0 Event.unmount staleState).timerActive = false ∧
    (staleState.timerActive = false → step fmt0 Event.timerFire staleState = staleState) ∧
    ((step fmt0 Event.timerFire staleState).writes.drop staleState.writes.length).all
      (fun w => w.1 == staleState.curId) = true :=
  no_status_update_after_teardown fmt0 staleState Event.timerFire 0
    ⟨1, mRemote, CyclePhase.awaitSpace⟩ (Except.ok true) (Except.ok 3) rfl rfl

/-- Inflight cycles added by the effect body: none for a skipped model,
otherwise the immediate first check of the new session. -/
lemma effectBody_inflight (m : Model) (en : Bool) (iv : Nat) (s : HookState) :
    (effectBody m en iv s).inflight =
      if shouldSkip m then s.inflight
      else s.inflight ++ [⟨s.curId + 1, m, CyclePhase.awaitSpace⟩] := by
  by_cases h : shouldSkip m = true <;> simp [effectBody, startCycle, h]

/-- Boolean well-formedness of a hook state: no in-flight cycle carries a
session id newer than the current one.  This holds along every run, since
cycles are started with the current id and ids only grow. -/
def WFb (s : HookState) : Bool :=
  s.inflight.all (fun c => decide (c.sid ≤ s.curId))

/-- C2 counterexample: two checks of the same session are simultaneously
in flight.  After mounting with a remote model, the first check is still
awaiting hasEnoughSpace when the interval fires and starts a second one,
so a session does not have at most one in-flight check. -/
theorem single_inflight_invariant_cex :
    1 < (run fmt0 [Event.effectRun mRemote true 10000, Event.timerFire]).inflight.length ∧
    (run fmt0 [Event.effectRun mRemote true 10000, Event.timerFire]).inflight.map
      (fun c => (c.sid, c.phase)) =
    [(1, CyclePhase.awaitSpace), (1, CyclePhase.awaitSpace)] := by
  refine ⟨?_, rfl⟩
  have h : (run fmt0 [Event.effectRun mRemote true 10000, Event.timerFire]).inflight.length
      = 2 := rfl
  rw [h]
  decide

/-- A mounted effect run unfolds to cleanup followed by the effect body. -/
lemma step_effectRun_of_mounted (fmt : Nat → String) (m : Model) (en : Bool) (iv : Nat)
    (s : HookState) (hm : s.mounted = true) :
    step fmt (Event.effectRun m en iv) s = effectBody m en iv (cleanup s) := by
  simp [step, hm]

/-- After a mounted effect run, every cycle that was in flight before it
is stale: the session id advanced past every id a well-formed state can
hold. -/
lemma effectRun_stales_inflight (fmt : Nat → String) (m : Model) (en : Bool) (iv : Nat)
    (s : HookState) (hm : s.mounted = true) (hwf : WFb s = true) :
    s.inflight.all
      (fun c => (step fmt (Event.effectRun m en iv) s).isStale c.sid) = true := by
  rw [step_effectRun_of_mounted fmt m en iv s hm, List.all_eq_true]
  intro c hcmem
  have hle : c.sid ≤ s.curId := by
    simpa using (List.all_eq_true.mp hwf) c hcmem
  have h1 : (effectBody m en iv (cleanup s)).mounted = true :=
    effectBody_mounted m en iv (cleanup s)
  have h2 : (effectBody m en iv (cleanup s)).curId = s.curId + 1 :=
    effectBody_curId m en iv (cleanup s)
  simp only [HookState.isStale, h1, h2, Bool.not_true, Bool.false_or, bne_iff_ne, ne_eq]
  omega

/-- A mounted effect run with a non-skipped model logs exactly one new
hasEnoughSpace call, tagged with the new session id and the new model. -/
lemma effectRun_spaceCalls (fmt : Nat → String) (m : Model) (en : Bool) (iv : Nat)
    (s : HookState) (hm : s.mounted = true) (hsk : shouldSkip m = false) :
    (step fmt (Event.effectRun m en iv) s).spaceCalls =
      s.spaceCalls ++ [(s.curId + 1, m)] := by
  rw [step_effectRun_of_mounted fmt m en iv s hm, effectBody_spaceCalls]
  simp [hsk, cleanup]

/-- C2 amended: a session can have several checks in flight at once when a
check outlasts the interval; what does hold is the second half of the
claim: an effect run that replaces the session makes every outstanding
cycle of the previous session stale (its result will be discarded) before
the new session starts its own first check on the new model. -/
theorem session_replacement_cancels_pending (fmt : Nat → String) (m : Model) (en : Bool)
    (iv : Nat) (s : HookState) (hm : s.mounted = true) (hwf : WFb s = true) :
    s.inflight.all (fun c => (step fmt (Event.effectRun m en iv) s).isStale c.sid) = true ∧
    (shouldSkip m = false →
      (step fmt (Event.effectRun m en iv) s).spaceCalls =
        s.spaceCalls ++ [(s.curId + 1, m)]) :=
  ⟨effectRun_stales_inflight fmt m en iv s hm hwf,
   fun hsk => effectRun_spaceCalls fmt m en iv s hm hsk⟩

/-- Witness for the amended C2: replacing the session of `sOne` makes its
pending check stale and immediately starts a check for the new model. -/
theorem session_replacement_cancels_pending_witness :
    sOne.inflight.all
      (fun c => (step fmt0 (Event.effectRun mRemote2 true 10000) sOne).isStale c.sid) = true ∧
    (shouldSkip mRemote2 = false →
      (step fmt0 (Event.effectRun mRemote2 true 10000) sOne).spaceCalls =
        sOne.spaceCalls ++ [(sOne.curId + 1, mRemote2)]) :=
  session_replacement_cancels_pending fmt0 mRemote2 true 10000 sOne rfl rfl

/-- An event whose effect runs, if any, carry a model the cycle skips. -/
def eventSkips : Event → Bool
  | Event.effectRun m _ _ => shouldSkip m
  | _ => true

/-- Inductive invariant for runs in which every observed model is skipped:
no oracle call has ever been made, the status is still the mount-time one,
nothing is in flight, and any current model is a skipped one. -/
def SkipInv (s : HookState) : Prop :=
  s.spaceCalls = [] ∧ s.status = okStatus ∧ s.inflight = [] ∧
  (s.mounted = true → shouldSkip s.curModel = true) ∧
  (s.timerActive = true → s.mounted = true)

lemma skipInv_init : SkipInv initState := by
  simp [SkipInv, initState]

lemma skipInv_step (fmt : Nat → String) (e : Event) (s : HookState)
    (h : SkipInv s) (he : eventSkips e = true) : SkipInv (step fmt e s) := by
  obtain ⟨hsc, hst, hin, hmo, hta⟩ := h
  cases e with
  | effectRun m en iv =>
      have hm : shouldSkip m = true := he
      simp only [step]
      split
      · exact ⟨hsc, hst, hin, hmo, hta⟩
      · refine ⟨?_, ?_, ?_, ?_, ?_⟩
        · rw [effectBody_spaceCalls]
          simp [hm, cleanup, hsc]
        · rw [effectBody_status]
          exact hst
        · rw [effectBody_inflight]
          simp [hm, cleanup, hin]
        · intro _
          rw [effectBody_curModel]
          exact hm
        · intro _
          rw [effectBody_mounted]
  | unmount =>
      exact ⟨hsc, hst, hin, by simp [step], by simp [step]⟩
  | timerFire =>
      simp only [step]
      split
      · rename_i htt
        have hsk : shouldSkip s.curModel = true := hmo (hta htt)
        rw [show startCycle s = s from by simp [startCycle, hsk]]
        exact ⟨hsc, hst, hin, hmo, hta⟩
      · exact ⟨hsc, hst, hin, hmo, hta⟩
  | spaceResolve j r =>
      have hid : step fmt (Event.spaceResolve j r) s = s := by
        simp [step, hin]
      rw [hid]
      exact ⟨hsc, hst, hin, hmo, hta⟩
  | freeResolve j r =>
      have hid : step fmt (Event.freeResolve j r) s = s := by
        simp [step, hin]
      rw [hid]
      exact ⟨hsc, hst, hin, hmo, hta⟩

lemma skipInv_foldl (fmt : Nat → String) (tr : List Event) :
    ∀ s : HookState, SkipInv s → tr.all eventSkips = true →
      SkipInv (tr.foldl (fun s e => step fmt e s) s) := by
  induction tr with
  | nil => intro s h _; exact h
  | cons e tr ih =>
      intro s h hall
      rw [List.all_cons, Bool.and_eq_true] at hall
      exact ih _ (skipInv_step fmt e s h hall.1) hall.2

/-- C3: along any run in which every model handed to the hook is already
downloaded, local, or of LOCAL origin, the space-sufficiency oracle is
never invoked and the published status never moves from the mount-time
okStatus. -/
theorem local_models_skip_checks (fmt : Nat → String) (tr : List Event)
    (h : tr.all eventSkips = true) :
    (run fmt tr).spaceCalls = [] ∧ (run fmt tr).status = okStatus := by
  have hinv : SkipInv (run fmt tr) := skipInv_foldl fmt tr initState skipInv_init h
  exact ⟨hinv.1, hinv.2.1⟩

/-- Witness for C3: a run that mounts a local model and sees a timer fire
makes no oracle call and keeps the mount-time status. -/
theorem local_models_skip_checks_witness :
    (run fmt0 [Event.effectRun mLocal true 10000, Event.timerFire]).spaceCalls = [] ∧
    (run fmt0 [Event.effectRun mLocal true 10000, Event.timerFire]).status = okStatus :=
  local_models_skip_checks fmt0 [Event.effectRun mLocal true 10000, Event.timerFire] rfl

/-- C8: an effect run while mounted tears the current session down and
starts a new one with the new parameters: the session id advances (so
every outstanding cycle of the old session is stale and its cancellation
token counts as activated), the timer belongs to the new configuration,
and the new session begins with an immediate check of the new model. -/
theorem restart_on_input_change (fmt : Nat → String) (m : Model) (en : Bool) (iv : Nat)
    (s : HookState) (hm : s.mounted = true) (hwf : WFb s = true) :
    (step fmt (Event.effectRun m en iv) s).curModel = m ∧
    (step fmt (Event.effectRun m en iv) s).curEnable = en ∧
    (step fmt (Event.effectRun m en iv) s).curInterval = iv ∧
    (step fmt (Event.effectRun m en iv) s).curId = s.curId + 1 ∧
    (step fmt (Event.effectRun m en iv) s).timerActive = en ∧
    s.inflight.all
      (fun c => (step fmt (Event.effectRun m en iv) s).isStale c.sid) = true ∧
    (shouldSkip m = false →
      (step fmt (Event.effectRun m en iv) s).inflight.getLast? =
        some ⟨s.curId + 1, m, CyclePhase.awaitSpace⟩) := by
  have hs : step fmt (Event.effectRun m en iv) s = effectBody m en iv (cleanup s) :=
    step_effectRun_of_mounted fmt m en iv s hm
  refine ⟨?_, ?_, ?_, ?_, ?_, ?_, ?_⟩
  · rw [hs]; exact effectBody_curModel m en iv (cleanup s)
  · rw [hs]; exact effectBody_curEnable m en iv (cleanup s)
  · rw [hs]; exact effectBody_curInterval m en iv (cleanup s)
  · rw [hs]; exact effectBody_curId m en iv (cleanup s)
  · rw [hs]; exact effectBody_timerActive m en iv (cleanup s)
  · exact effectRun_stales_inflight fmt m en iv s hm hwf
  · intro hsk
    rw [hs, effectBody_inflight]
    simp [hsk, cleanup, List.getLast?_concat]

/-- Witness for C8: replacing the session of `sOne` with new parameters
(model mRemote2, periodic checking off, 5000 ms interval). -/
theorem restart_on_input_change_witness :
    (step fmt0 (Event.effectRun mRemote2 false 5000) sOne).curModel = mRemote2 ∧
    (step fmt0 (Event.effectRun mRemote2 false 5000) sOne).curEnable = false ∧
    (step fmt0 (Event.effectRun mRemote2 false 5000) sOne).curInterval = 5000 ∧
    (step fmt0 (Event.effectRun mRemote2 false 5000) sOne).curId = sOne.curId + 1 ∧
    (step fmt0 (Event.effectRun mRemote2 false 5000) sOne).timerActive = false ∧
    sOne.inflight.all
      (fun c => (step fmt0 (Event.effectRun mRemote2 false 5000) sOne).isStale c.sid) = true ∧
    (shouldSkip mRemote2 = false →
      (step fmt0 (Event.effectRun mRemote2 false 5000) sOne).inflight.getLast? =
        some ⟨sOne.curId + 1, mRemote2, CyclePhase.awaitSpace⟩) :=
  restart_on_input_change fmt0 mRemote2 false 5000 sOne rfl rfl

/-- Membership of a successful index lookup. -/
lemma mem_of_lookup {α : Type} {l : List α} {i : Nat} {a : α} (h : l[i]? = some a) :
    a ∈ l := by
  obtain ⟨hi, he⟩ := List.getElem?_eq_some.mp h
  exact he ▸ List.getElem_mem hi

/-- Inflight cycles after startCycle. -/
lemma startCycle_inflight (s : HookState) :
    (startCycle s).inflight =
      if shouldSkip s.curModel then s.inflight
      else s.inflight ++ [⟨s.curId, s.curModel, CyclePhase.awaitSpace⟩] := by
  unfold startCycle; split <;> rfl

lemma startCycle_curId (s : HookState) : (startCycle s).curId = s.curId := by
  unfold startCycle; split <;> rfl

lemma WFb_init : WFb initState = true := rfl

/-- Well-formedness is preserved by every event: cycles are started with
the current session id and the id never decreases, so `WFb` holds in every
reachable state and the hypotheses of the session-replacement theorems are
the normal case. -/
lemma WFb_step (fmt : Nat → String) (e : Event) (s : HookState) (h : WFb s = true) :
    WFb (step fmt e s) = true := by
  have hmem : ∀ c2 ∈ s.inflight, c2.sid ≤ s.curId := by
    intro c2 hc2
    simpa using (List.all_eq_true.mp h) c2 hc2
  rw [WFb, List.all_eq_true]
  intro c hc
  rw [decide_eq_true_eq]
  cases e with
  | effectRun m en iv =>
      revert hc
      simp only [step]
      split
      · intro hc
        exact hmem c hc
      · rw [effectBody_inflight, effectBody_curId]
        have hcl1 : (cleanup s).inflight = s.inflight := rfl
        have hcl2 : (cleanup s).curId = s.curId := rfl
        rw [hcl1, hcl2]
        split
        · intro hc
          exact Nat.le_succ_of_le (hmem c hc)
        · intro hc
          rcases List.mem_append.mp hc with h1 | h1
          · exact Nat.le_succ_of_le (hmem c h1)
          · rw [List.mem_singleton] at h1
            subst h1
            exact Nat.le_refl _
  | unmount =>
      exact hmem c hc
  | timerFire =>
      revert hc
      simp only [step]
      split
      · rw [startCycle_inflight, startCycle_curId]
        split
        · intro hc
          exact hmem c hc
        · intro hc
          rcases List.mem_append.mp hc with h1 | h1
          · exact hmem c h1
          · rw [List.mem_singleton] at h1
            subst h1
            exact Nat.le_refl _
      · intro hc
        exact hmem c hc
  | spaceResolve j r =>
      revert hc
      simp only [step]
      rcases h2 : s.inflight[j]? with _ | c2
      · simp only [h2]
        intro hc
        exact hmem c hc
      · obtain ⟨sid2, mo2, ph2⟩ := c2
        cases ph2 with
        | awaitFree =>
            simp only [h2]
            intro hc
            exact hmem c hc
        | awaitSpace =>
            rcases r with er | b
            · simp only [h2]
              split
              · intro hc
                exact hmem c (List.mem_of_mem_eraseIdx hc)
              · intro hc
                exact hmem c (List.mem_of_mem_eraseIdx hc)
            · cases b
              · simp only [h2]
                split
                · intro hc
                  exact hmem c (List.mem_of_mem_eraseIdx hc)
                · intro hc
                  rcases List.mem_or_eq_of_mem_set hc with h1 | h1
                  · exact hmem c h1
                  · subst h1
                    exact hmem ⟨sid2, mo2, CyclePhase.awaitSpace⟩ (mem_of_lookup h2)
              · simp only [h2]
                split
                · intro hc
                  exact hmem c (List.mem_of_mem_eraseIdx hc)
                · intro hc
                  exact hmem c (List.mem_of_mem_eraseIdx hc)
  | freeResolve j r =>
      revert hc
      simp only [step]
      rcases h2 : s.inflight[j]? with _ | c2
      · simp only [h2]
        intro hc
        exact hmem c hc
      · obtain ⟨sid2, mo2, ph2⟩ := c2
        cases ph2 with
        | awaitSpace =>
            simp only [h2]
            intro hc
            exact hmem c hc
        | awaitFree =>
            rcases r with er | n
            · simp only [h2]
              split
              · intro hc
                exact hmem c (List.mem_of_mem_eraseIdx hc)
              · intro hc
                exact hmem c (List.mem_of_mem_eraseIdx hc)
            · simp only [h2]
              split
              · intro hc
                exact hmem c (List.mem_of_mem_eraseIdx hc)
              · intro hc
                exact hmem c (List.mem_of_mem_eraseIdx hc)

/-- Well-formedness holds along every run from mount. -/
lemma WFb_run (fmt : Nat → String) (tr : List Event) : WFb (run fmt tr) = true := by
  suffices hgen : ∀ s : HookState, WFb s = true →
      WFb (tr.foldl (fun s e => step fmt e s) s) = true from
    hgen initState WFb_init
  induction tr with
  | nil => intro s hs; exact hs
  | cons e tr ih =>
      intro s hs
      exact ih _ (WFb_step fmt e s hs)

end StorageCheck
